import Mathlib

/-!
Shallow embedding of the reward-shaping engine of the DeepJ repository,
file `music/music_theory_env.py` (class `MusicTheoryEnv`).  Pitches and
event codes are integers, rewards are rationals, and Python exceptions
are modelled with an explicit error type.
-/

/-- Python exceptions that the modelled code paths can raise. -/
inductive PyError where
  | indexError
  | unboundLocal
  | typeError
  | assertionError
  | valueError
deriving DecidableEq, Repr

/-- The per-episode leap-tracking state of `MusicTheoryEnv`
(fields set in `_reset` and mutated only by `detect_leap_up_back`). -/
structure LeapState where
  composition_direction : ℤ
  leapt_from : Option ℤ
  steps_since_last_leap : ℕ
deriving DecidableEq, Repr

/-- Modelled from the spec: the HOLD event code from the missing `music/util.py`
(glossary: HOLD / NO_EVENT continues the previous pitch); the value 0 is the
magenta rl_tuner convention the source file cites, consistent with the pitch
lists hardcoded in `detect_sequential_interval` starting at 2. -/
def NO_EVENT : ℤ := 0

/-- Modelled from the spec: the NOTE-OFF (silence) event code from the missing
`music/util.py`; value 1 per the magenta rl_tuner convention. -/
def NOTE_OFF : ℤ := 1

/-- Modelled from the spec: notes per beat from the missing `music/util.py`;
the spec fixes NOTES_PER_BEAT = 4 in its repetition-penalty scenario. -/
def NOTES_PER_BEAT : ℕ := 4

/-- Modelled from the spec: notes per bar from the missing `music/util.py`
(a bar is a fixed number of consecutive time steps); 4 beats of 4 notes. -/
def NOTES_PER_BAR : ℕ := 16

/-- Modelled from the spec: the C-major key pitch set from the missing
`music/util.py` (pitches considered in key across the playable range,
special events included), per the magenta rl_tuner constants. -/
def C_MAJOR_KEY : List ℤ :=
  [0, 1, 2, 4, 6, 7, 9, 11, 13, 14, 16, 18, 19, 21, 23, 25, 26, 28, 30, 31,
   33, 35, 37]

/-- Modelled from the spec: the distinguished tonic pitch of the default key
from the missing `music/util.py`, consistent with the tonic list [2, 14, 26]
hardcoded in the source. -/
def C_MAJOR_TONIC : ℤ := 14

/-- Modelled from the spec: interval size of a second in semitone units
(missing `music/util.py`). -/
def SECOND : ℚ := 2

/-- Modelled from the spec: interval size of a third (missing `music/util.py`),
consistent with the hardcoded third-degree pitches [6, 18, 30] sitting four
semitones above the tonics [2, 14, 26]. -/
def THIRD : ℚ := 4

/-- Modelled from the spec: interval size of a fourth (missing `music/util.py`). -/
def FOURTH : ℚ := 5

/-- Modelled from the spec: interval size of a perfect fifth (missing
`music/util.py`), consistent with the hardcoded fifth-degree pitches
[9, 21, 33] sitting seven semitones above the tonics [2, 14, 26]. -/
def FIFTH : ℚ := 7

/-- Modelled from the spec: interval size of a sixth (missing `music/util.py`). -/
def SIXTH : ℚ := 9

/-- Modelled from the spec: interval size of a seventh (missing `music/util.py`). -/
def SEVENTH : ℚ := 11

/-- Modelled from the spec: interval size of an octave (missing `music/util.py`). -/
def OCTAVE : ℚ := 12

/-- Modelled from the spec: sentinel bucket for a rest interval (missing
`music/util.py`); a negative non-interval value per the magenta convention. -/
def REST_INTERVAL : ℚ := -1

/-- Modelled from the spec: sentinel bucket for a hold interval (missing
`music/util.py`). -/
def HOLD_INTERVAL : ℚ := mkRat (-3) 2  -- the value -1.5

/-- Modelled from the spec: sentinel bucket for a rest after a strong scale
degree (missing `music/util.py`). -/
def REST_INTERVAL_AFTER_THIRD_OR_FIFTH : ℚ := -2

/-- Modelled from the spec: sentinel bucket for a hold after a strong scale
degree (missing `music/util.py`). -/
def HOLD_INTERVAL_AFTER_THIRD_OR_FIFTH : ℚ := mkRat (-5) 2  -- the value -2.5

/-- Modelled from the spec: sentinel bucket for an in-key third (missing
`music/util.py`). -/
def IN_KEY_THIRD : ℚ := -3

/-- Modelled from the spec: sentinel bucket for an in-key fifth (missing
`music/util.py`). -/
def IN_KEY_FIFTH : ℚ := mkRat (-9) 2  -- the value -4.5

/-- Modelled from the spec: ascending melodic direction code (missing
`music/util.py`). -/
def ASCENDING : ℤ := 1

/-- Modelled from the spec: descending melodic direction code (missing
`music/util.py`). -/
def DESCENDING : ℤ := -1

/-- Modelled from the spec: outcome code for a resolved leap (missing
`music/util.py`). -/
def LEAP_RESOLVED : ℤ := 1

/-- Modelled from the spec: outcome code for a doubled leap (missing
`music/util.py`). -/
def LEAP_DOUBLED : ℤ := -1

/-- An event code that is not a sounding pitch (HOLD or NOTE-OFF). -/
def isSpecial (x : ℤ) : Bool := x == NO_EVENT || x == NOTE_OFF

/-- The pitch lists `c_notes` (= `tonic_notes`) hardcoded in
`detect_sequential_interval`. -/
def cNotes : List ℤ := [2, 14, 26]

/-- The pitch lists `g_notes` (= `fifth_notes`) hardcoded in
`detect_sequential_interval`. -/
def gNotes : List ℤ := [9, 21, 33]

/-- The pitch list `e_notes` hardcoded in `detect_sequential_interval`. -/
def eNotes : List ℤ := [6, 18, 30]

/-- The prev-note scan of `detect_sequential_interval`: starting from the last
element of `l` (the element at `composition[-2]`), walk left while the value
seen is HOLD or NOTE-OFF; the result is the rightmost sounding pitch of `l`,
or `l`'s first element (a special code) if no sounding pitch exists. -/
def pyPrevNote (l : List ℤ) : ℤ :=
  match l.reverse.find? (fun x => !isSpecial x) with
  | some p => p
  | none => l.headD NO_EVENT

/-- `MusicTheoryEnv.detect_sequential_interval`.  The composition already has
the action appended as its last element; reading `composition[-2]` raises
IndexError when the composition has fewer than two elements.  With an explicit
(non-None) `key`, the names `tonic_notes` / `fifth_notes` are only bound in the
key-is-None branch, so the HOLD / NOTE-OFF classification paths raise
UnboundLocalError. -/
def detect_sequential_interval (action : ℤ) (key : Option (List ℤ))
    (comp : List ℤ) : Except PyError (ℚ × ℤ × ℤ) :=
  if comp.length < 2 then .error .indexError
  else
    let prev_note := pyPrevNote comp.dropLast
    if isSpecial prev_note then .ok (0, action, prev_note)
    else if action = NO_EVENT then
      match key with
      | some _ => .error .unboundLocal
      | none =>
        if prev_note ∈ cNotes ∨ prev_note ∈ gNotes then
          .ok (HOLD_INTERVAL_AFTER_THIRD_OR_FIFTH, action, prev_note)
        else .ok (HOLD_INTERVAL, action, prev_note)
    else if action = NOTE_OFF then
      match key with
      | some _ => .error .unboundLocal
      | none =>
        if prev_note ∈ cNotes ∨ prev_note ∈ gNotes then
          .ok (REST_INTERVAL_AFTER_THIRD_OR_FIFTH, action, prev_note)
        else .ok (REST_INTERVAL, action, prev_note)
    else
      let interval : ℚ := ((action - prev_note).natAbs : ℚ)
      match key with
      | none =>
        if interval = FIFTH ∧ (prev_note ∈ cNotes ∨ prev_note ∈ gNotes) then
          .ok (IN_KEY_FIFTH, action, prev_note)
        else if interval = THIRD ∧ (prev_note ∈ cNotes ∨ prev_note ∈ eNotes) then
          .ok (IN_KEY_THIRD, action, prev_note)
        else .ok (interval, action, prev_note)
      | some _ => .ok (interval, action, prev_note)

/-- `MusicTheoryEnv.reward_key` with its default `key = C_MAJOR_KEY`. -/
def reward_key (action : ℤ) (key : List ℤ) : ℚ :=
  if action ∈ key then 1 else 0

/-- `MusicTheoryEnv.reward_tonic` with its default `tonic_note = C_MAJOR_TONIC`;
`beat` is the environment's step counter at reward time (the action's 0-based
position plus one), and the `assert last_beat >= 0` is an AssertionError. -/
def reward_tonic (beat : ℕ) (num_notes : ℕ) (action : ℤ) : Except PyError ℚ :=
  let last_beat : ℤ := (beat : ℤ) - 1
  let first_note_of_final_bar : ℤ := (num_notes : ℤ) - (NOTES_PER_BAR : ℤ)
  if last_beat < 0 then .error .assertionError
  else if last_beat = 0 ∨ last_beat = first_note_of_final_bar then
    if action = C_MAJOR_TONIC then .ok 1 else .ok 0
  else if last_beat = first_note_of_final_bar + 1 then
    if action = NO_EVENT then .ok 1 else .ok 0
  else if first_note_of_final_bar + 1 < last_beat then
    if action = NO_EVENT ∨ action = NOTE_OFF then .ok 1 else .ok 0
  else .ok 0

/-- The backward scan of `reward_penalize_repeating`, run on the reverse of the
composition without its final element: count elements equal to the action,
record a NOTE-OFF as a break, a HOLD as a held note, and stop at anything
else. -/
def repeatScan (action : ℤ) : List ℤ → ℕ × Bool × Bool
  | [] => (0, false, false)
  | x :: xs =>
    if x = action then
      let r := repeatScan action xs
      (r.1 + 1, r.2.1, r.2.2)
    else if x = NOTE_OFF then
      let r := repeatScan action xs
      (r.1, r.2.1, true)
    else if x = NO_EVENT then
      let r := repeatScan action xs
      (r.1, true, r.2.2)
    else (0, false, false)

/-- `MusicTheoryEnv.reward_penalize_repeating`: the scan starts at the
second-to-last element (the action itself is discounted). -/
def reward_penalize_repeating (action : ℤ) (comp : List ℤ) : ℚ :=
  let r := repeatScan action comp.dropLast.reverse
  let num_repeated := r.1
  let contains_held_notes := r.2.1
  let contains_breaks := r.2.2
  if contains_held_notes = false ∧ contains_breaks = false then
    let tolerance : ℚ := (NOTES_PER_BEAT : ℚ) / 2
    if tolerance < (num_repeated : ℚ) then -((num_repeated : ℚ) - tolerance)
    else 0
  else
    if 6 < num_repeated then -((num_repeated : ℚ) - 6) else 0

/-- `MusicTheoryEnv.reward_penalize_autocorrelation`.  The `autocorrelate`
helper lives in the missing `music/util.py`; it is passed as a parameter, with
`none` standing for a NaN coefficient (undefined on a zero-variance segment). -/
def reward_penalize_autocorrelation (autocorrelate : List ℤ → ℕ → Option ℚ)
    (comp : List ℤ) (lags : List ℕ) : ℚ :=
  -(lags.foldl (fun sum_penalty lag =>
      if lag < comp.length then
        match autocorrelate comp lag with
        | some coeff =>
          -- the threshold is 0.15
          if mkRat 3 20 < |coeff| then sum_penalty + |coeff| else sum_penalty
        | none => sum_penalty
      else sum_penalty) 0)

/-- `MusicTheoryEnv.detect_last_motif`. -/
def detect_last_motif (comp : List ℤ) (bar_length : ℕ) :
    Option (List ℤ) × ℕ :=
  if comp.length < bar_length then (none, 0)
  else
    -- the Python slice composition[-bar_length:] is the whole list when
    -- bar_length = 0
    let last_bar :=
      if bar_length = 0 then comp else comp.drop (comp.length - bar_length)
    let actual_notes := last_bar.filter (fun a => !isSpecial a)
    (some last_bar, actual_notes.dedup.length)

/-- `MusicTheoryEnv.reward_motif` with its default `unique = 3`. -/
def reward_motif (comp : List ℤ) : ℚ :=
  let r := detect_last_motif comp NOTES_PER_BAR
  if 3 ≤ r.2 then 1 + ((r.2 : ℚ) - 3) / (NOTES_PER_BAR : ℚ) else 0

/-- `MusicTheoryEnv.detect_repeated_motif` with its defaults `unique = 3`,
`bar_length = NOTES_PER_BAR`. -/
def detect_repeated_motif (comp : List ℤ) : Bool × Option ℕ :=
  if comp.length < NOTES_PER_BAR then (false, none)
  else
    match detect_last_motif comp NOTES_PER_BAR with
    | (some motif, num_notes_in_motif) =>
      if num_notes_in_motif < 3 then (false, none)
      else
        let prev_composition := comp.take (comp.length - NOTES_PER_BAR)
        if (List.range (prev_composition.length + 1 - motif.length)).any
            (fun i => (prev_composition.drop i).take motif.length == motif)
        then (true, some num_notes_in_motif)
        else (false, none)
    | (none, _) => (false, none)  -- unreachable: the length guard ensures a bar

/-- `MusicTheoryEnv.reward_repeated_motif` with its default `unique = 3`. -/
def reward_repeated_motif (comp : List ℤ) : ℚ :=
  match detect_repeated_motif comp with
  | (true, some n) =>
    if 3 ≤ n then 1 + ((n : ℚ) - 3) / (NOTES_PER_BAR : ℚ) else 0
  | _ => 0

/-- `MusicTheoryEnv.reward_preferred_intervals`: the sequence of independent
Python if-statements is mirrored by successive rebindings, the last matching
one winning. -/
def reward_preferred_intervals (action : ℤ) (key : Option (List ℤ))
    (comp : List ℤ) : Except PyError ℚ :=
  match detect_sequential_interval action key comp with
  | .error e => .error e
  | .ok (interval, _, _) =>
    if interval = 0 then .ok 0
    else
      let reward : ℚ := 0
      let reward := if interval = REST_INTERVAL then mkRat 7 100 else reward  -- 0.07
      let reward := if interval = HOLD_INTERVAL then mkRat 1 10 else reward  -- 0.1
      let reward :=
        if interval = REST_INTERVAL_AFTER_THIRD_OR_FIFTH then mkRat 3 20 else reward  -- 0.15
      let reward :=
        if interval = HOLD_INTERVAL_AFTER_THIRD_OR_FIFTH then mkRat 2 5 else reward  -- 0.4
      let reward := if interval = SEVENTH then mkRat (-3) 10 else reward  -- -0.3
      let reward := if OCTAVE < interval then -1 else reward
      let reward := if interval = IN_KEY_FIFTH then mkRat 1 10 else reward  -- 0.1
      let reward := if interval = IN_KEY_THIRD then mkRat 3 20 else reward  -- 0.15
      let reward := if interval = THIRD then mkRat 9 100 else reward  -- 0.09
      let reward := if interval = SECOND then mkRat 2 25 else reward  -- 0.08
      let reward := if interval = FOURTH then mkRat 7 100 else reward  -- 0.07
      let reward := if interval = SIXTH then mkRat 1 20 else reward  -- 0.05
      let reward := if interval = FIFTH then mkRat 1 50 else reward  -- 0.02
      .ok reward

/-- `MusicTheoryEnv.detect_leap_up_back`.  Mirrors the Python short-circuit:
with a pending direction the action is compared against `leapt_from`, and a
`None` there would raise TypeError. -/
def detect_leap_up_back (steps_between_leaps : ℕ) (s : LeapState)
    (comp : List ℤ) (action : ℤ) : Except PyError (ℤ × LeapState) :=
  match detect_sequential_interval action none comp with
  | .error e => .error e
  | .ok (interval, action_note, prev_note) =>
    if action_note = NOTE_OFF ∨ action_note = NO_EVENT then
      .ok (0, ⟨s.composition_direction, s.leapt_from,
               s.steps_since_last_leap + 1⟩)
    else if FIFTH ≤ interval ∨ interval = IN_KEY_FIFTH then
      let leap_direction := if prev_note < action_note then ASCENDING
                            else DESCENDING
      if s.composition_direction ≠ 0 then
        if s.composition_direction ≠ leap_direction then
          .ok (if steps_between_leaps < s.steps_since_last_leap
               then LEAP_RESOLVED else 0,
               ⟨0, none, 0⟩)
        else
          .ok (LEAP_DOUBLED, ⟨s.composition_direction, s.leapt_from, 0⟩)
      else
        .ok (0, ⟨leap_direction, some prev_note, 0⟩)
    else
      if s.composition_direction = ASCENDING then
        match s.leapt_from with
        | none => .error .typeError
        | some lf =>
          if action_note ≤ lf then
            .ok (LEAP_RESOLVED, ⟨0, none, s.steps_since_last_leap + 1⟩)
          else
            .ok (0, ⟨s.composition_direction, s.leapt_from,
                     s.steps_since_last_leap + 1⟩)
      else if s.composition_direction = DESCENDING then
        match s.leapt_from with
        | none => .error .typeError
        | some lf =>
          if lf ≤ action_note then
            .ok (LEAP_RESOLVED, ⟨0, none, s.steps_since_last_leap + 1⟩)
          else
            .ok (0, ⟨s.composition_direction, s.leapt_from,
                     s.steps_since_last_leap + 1⟩)
      else
        .ok (0, ⟨s.composition_direction, s.leapt_from,
                 s.steps_since_last_leap + 1⟩)

/-- `MusicTheoryEnv.reward_leap_up_back`. -/
def reward_leap_up_back (steps_between_leaps : ℕ) (s : LeapState)
    (comp : List ℤ) (action : ℤ) : Except PyError (ℚ × LeapState) :=
  match detect_leap_up_back steps_between_leaps s comp action with
  | .error e => .error e
  | .ok (leap_outcome, s2) =>
    if leap_outcome = LEAP_RESOLVED then .ok (1, s2)
    else if leap_outcome = LEAP_DOUBLED then .ok (-1, s2)
    else .ok (0, s2)

/-- `MusicTheoryEnv.detect_high_unique`; numpy's max of an empty array raises. -/
def detect_high_unique (comp : List ℤ) : Except PyError Bool :=
  match comp.max? with
  | none => .error .valueError
  | some max_note => .ok (comp.count max_note == 1)

/-- `MusicTheoryEnv.detect_low_unique`. -/
def detect_low_unique (comp : List ℤ) : Bool :=
  let no_special_events := comp.filter (fun x => !isSpecial x)
  match no_special_events.min? with
  | none => false
  | some min_note => comp.count min_note == 1

/-- `MusicTheoryEnv.reward_high_low_unique`; `num_notes` is the target total
composition length supplied by the environment. -/
def reward_high_low_unique (num_notes : ℕ) (comp : List ℤ) :
    Except PyError ℚ :=
  if comp.length ≠ num_notes then .ok 0
  else
    match detect_high_unique comp with
    | .error e => .error e
    | .ok hu =>
      .ok ((if hu then 1 else 0) + (if detect_low_unique comp then 1 else 0))

/-- `MusicTheoryEnv._reset`: the leap-tracking state at episode start. -/
def resetLeapState : LeapState := ⟨0, none, 0⟩

/-- `MusicTheoryEnv._step`: the composition already contains the action as its
last element; `base` is the reward returned by the superclass step.  The
heuristics are evaluated in source order, `reward_leap_up_back` being the only
one that mutates the leap state. -/
def stepReward (autocorrelate : List ℤ → ℕ → Option ℚ) (base : ℚ)
    (beat num_notes : ℕ) (s : LeapState) (comp : List ℤ) (action : ℤ) :
    Except PyError (ℚ × LeapState) := do
  let reward := base + (reward_key action C_MAJOR_KEY - 1)
  let t ← reward_tonic beat num_notes action
  let reward := reward + t * 3
  let reward := reward + reward_penalize_repeating action comp * 100
  let reward :=
    reward + reward_penalize_autocorrelation autocorrelate comp [1, 2, 3] * 4
  let reward := reward + reward_motif comp * 3
  let reward := reward + reward_repeated_motif comp * 4
  let p ← reward_preferred_intervals action none comp
  let reward := reward + p * 5
  let ls ← reward_leap_up_back 12 s comp action
  let reward := reward + ls.1 * 5
  let h ← reward_high_low_unique num_notes comp
  return (reward + h * 3, ls.2)

/-- The run scanned by `reward_penalize_repeating`: the maximal suffix of the
composition before the action consisting of the action pitch, HOLD and
NOTE-OFF codes (taken in reverse order). -/
def repeatRun (a : ℤ) (l : List ℤ) : List ℤ :=
  l.takeWhile (fun x => x == a || isSpecial x)
/-- The per-lag contribution to the autocorrelation penalty: the absolute
coefficient when it is defined (not NaN) and exceeds the 0.15 threshold,
otherwise nothing. -/
def acContribution (autocorrelate : List ℤ → ℕ → Option ℚ) (comp : List ℤ)
    (lag : ℕ) : ℚ :=
  match autocorrelate comp lag with
  | some coeff => if mkRat 3 20 < |coeff| then |coeff| else 0
  | none => 0
/-- The invariant tying the two leap-tracking fields together: the leap origin
is absent exactly when no leap direction is pending. -/
def leapInv (s : LeapState) : Prop :=
  s.leapt_from = none ↔ s.composition_direction = 0

/-- Claim C2 (code bug witness): on the very first step the action is the only
element of the composition and `detect_sequential_interval` raises IndexError
reading `composition[-2]` instead of returning the no-interval bucket; with at
least two elements and no prior sounding pitch it does return the no-interval
bucket 0 as the claim describes. -/
theorem detect_sequential_interval_first_step_bug :
    detect_sequential_interval 14 none [14] = .error .indexError ∧
    detect_sequential_interval 14 none [0, 1, 14] = .ok (0, 14, 0) :=
  ⟨rfl, rfl⟩

/-- Claim C5 (counterexample): with the environment step counter `beat = 0` the
code computes `last_beat = -1` and fails its assertion rather than returning
the tonic reward. -/
theorem reward_tonic_beat_zero_cex :
    reward_tonic 0 128 C_MAJOR_TONIC = .error .assertionError ∧
    reward_tonic 0 128 C_MAJOR_TONIC ≠ .ok 1 := by
  refine ⟨rfl, fun h => ?_⟩
  rw [show reward_tonic 0 128 C_MAJOR_TONIC = .error .assertionError from rfl]
    at h
  exact Except.noConfusion h

/-- Claim C5 (amended): for the first event of the piece, where the step
counter is 1 (so `last_beat = 0`), `reward_tonic` returns 1 if the action is
the tonic pitch and 0 otherwise. -/
theorem reward_tonic_first_event (num_notes : ℕ) (action : ℤ) :
    reward_tonic 1 num_notes action =
      .ok (if action = C_MAJOR_TONIC then 1 else 0) := by
  unfold reward_tonic
  norm_num
  split <;> rfl

/-- Claim C10: with any non-None key argument, a HOLD or NOTE-OFF action and
an existing prior sounding pitch, `detect_sequential_interval` fails with an
unbound-variable error, because `tonic_notes` and `fifth_notes` are bound only
in the key-is-None branch. -/
theorem detect_sequential_interval_custom_key_unbound
    (k : List ℤ) (comp : List ℤ) (a : ℤ)
    (ha : a = NO_EVENT ∨ a = NOTE_OFF)
    (hlen : 2 ≤ comp.length)
    (hprev : isSpecial (pyPrevNote comp.dropLast) = false) :
    detect_sequential_interval a (some k) comp = .error .unboundLocal := by
  unfold detect_sequential_interval
  rw [if_neg (by omega)]
  simp only [hprev, Bool.false_eq_true, if_false]
  rcases ha with h | h
  · rw [if_pos h]
  · rw [if_neg (by rw [h]; decide), if_pos h]

/-- Witness for claim C10 at a concrete input. -/
theorem detect_sequential_interval_custom_key_unbound_witness :
    detect_sequential_interval 0 (some [5]) [3, 0] = .error .unboundLocal :=
  detect_sequential_interval_custom_key_unbound [5] [3, 0] 0 (Or.inl rfl)
    (by decide) (by decide)

/-- Claim C7: a composition shorter than one bar has no motif (count 0), and
whenever the distinct-pitch count of the trailing bar is below the `unique`
threshold 3, both motif rewards are 0 — an ordinary zero-reward outcome, not
an error. -/
theorem motif_rewards_zero_below_unique :
    (∀ comp : List ℤ, comp.length < NOTES_PER_BAR →
       detect_last_motif comp NOTES_PER_BAR = (none, 0)) ∧
    (∀ comp : List ℤ, (detect_last_motif comp NOTES_PER_BAR).2 < 3 →
       reward_motif comp = 0 ∧ reward_repeated_motif comp = 0) := by
  constructor
  · intro comp h
    unfold detect_last_motif
    rw [if_pos h]
  · intro comp h
    constructor
    · unfold reward_motif
      rw [if_neg (by omega)]
    · unfold reward_repeated_motif detect_repeated_motif
      by_cases hl : comp.length < NOTES_PER_BAR
      · rw [if_pos hl]
      · rw [if_neg hl]
        rcases hm : detect_last_motif comp NOTES_PER_BAR with ⟨o, n⟩
        rw [hm] at h
        cases o with
        | none => rfl
        | some m => simp [h]

/-- Witness for claim C7 at the empty composition. -/
theorem motif_rewards_zero_below_unique_witness :
    detect_last_motif [] NOTES_PER_BAR = (none, 0) ∧
    reward_motif [] = 0 ∧ reward_repeated_motif [] = 0 :=
  ⟨motif_rewards_zero_below_unique.1 [] (by decide),
   (motif_rewards_zero_below_unique.2 [] (by decide)).1,
   (motif_rewards_zero_below_unique.2 [] (by decide)).2⟩

lemma repeatScan_eq (a : ℤ) (l : List ℤ) :
    repeatScan a l =
      ((repeatRun a l).count a,
       ((repeatRun a l).filter (fun x => x != a)).contains NO_EVENT,
       ((repeatRun a l).filter (fun x => x != a)).contains NOTE_OFF) := by
  induction l with
  | nil => rfl
  | cons x xs ih =>
    by_cases hxa : x = a
    · subst hxa
      simp [repeatScan, repeatRun, List.takeWhile_cons, ih, List.count_cons]
    · have hax : ¬a = x := fun h => hxa h.symm
      by_cases hoff : x = NOTE_OFF
      · subst hoff
        simp only [NOTE_OFF] at hxa hax
        simp [repeatScan, repeatRun, List.takeWhile_cons, isSpecial, ih,
          List.count_cons, List.filter_cons, hxa, hax, NOTE_OFF, NO_EVENT]
      · by_cases hev : x = NO_EVENT
        · subst hev
          simp only [NO_EVENT] at hxa hax
          simp only [NOTE_OFF, NO_EVENT] at hoff
          simp [repeatScan, repeatRun, List.takeWhile_cons, isSpecial, ih,
            List.count_cons, List.filter_cons, hxa, hax, hoff, NOTE_OFF, NO_EVENT]
        · have hp : (x == a || isSpecial x) = false := by
            simp only [isSpecial, NO_EVENT, NOTE_OFF]
            simp only [NO_EVENT] at hev
            simp only [NOTE_OFF] at hoff
            simp [hxa, hev, hoff]
          simp [repeatScan, repeatRun, List.takeWhile_cons, hp, hxa, hoff, hev]

lemma neg_sub_ite_eq_neg_max (x t : ℚ) :
    (if t < x then -(x - t) else 0) = -(max 0 (x - t)) := by
  rcases le_or_lt x t with h | h
  · rw [if_neg (not_lt.2 h), max_eq_left (by linarith), neg_zero]
  · rw [if_pos h, max_eq_right (by linarith)]

lemma neg_sub_ite_six_eq_neg_max (n : ℕ) :
    (if 6 < n then -((n : ℚ) - 6) else 0) = -(max 0 ((n : ℚ) - 6)) := by
  rcases le_or_lt n 6 with h | h
  · have hq : (n : ℚ) ≤ 6 := by exact_mod_cast h
    rw [if_neg (by omega), max_eq_left (by linarith), neg_zero]
  · have hq : (6 : ℚ) < (n : ℚ) := by exact_mod_cast h
    rw [if_pos h, max_eq_right (by linarith)]

/-- Claim C4: the repetition penalty equals minus the positive excess of the
scanned repeat count over the applicable tolerance (NOTES_PER_BEAT/2 for a
contiguous run, 6 when a HOLD or NOTE-OFF was seen), is therefore never
positive, and a run of 7 identical pitches is penalized by exactly 4. -/
theorem reward_penalize_repeating_spec :
    (∀ (a : ℤ) (comp : List ℤ),
       reward_penalize_repeating a comp =
         (if ((repeatRun a comp.dropLast.reverse).filter
                (fun x => x != a)).contains NO_EVENT = false ∧
             ((repeatRun a comp.dropLast.reverse).filter
                (fun x => x != a)).contains NOTE_OFF = false
          then -(max 0 (((repeatRun a comp.dropLast.reverse).count a : ℚ) -
                        (NOTES_PER_BEAT : ℚ) / 2))
          else -(max 0 (((repeatRun a comp.dropLast.reverse).count a : ℚ) - 6)))) ∧
    (∀ (a : ℤ) (comp : List ℤ), reward_penalize_repeating a comp ≤ 0) ∧
    reward_penalize_repeating 14 (List.replicate 7 14) = -4 := by
  refine ⟨?_, ?_, ?_⟩
  · intro a comp
    simp only [reward_penalize_repeating, repeatScan_eq]
    split
    · exact neg_sub_ite_eq_neg_max _ _
    · exact neg_sub_ite_six_eq_neg_max _
  · intro a comp
    simp only [reward_penalize_repeating]
    split
    · split
      · next h => linarith
      · exact le_refl 0
    · split
      · next h =>
        have h6 : (6 : ℚ) <
            ((repeatScan a comp.dropLast.reverse).1 : ℚ) := by
          exact_mod_cast h
        linarith
      · exact le_refl 0
  · norm_num [reward_penalize_repeating, repeatScan, NOTE_OFF, NO_EVENT,
      NOTES_PER_BEAT]

lemma autocorr_foldl (autocorrelate : List ℤ → ℕ → Option ℚ) (comp : List ℤ)
    (l : List ℕ) (c : ℚ) :
    l.foldl (fun sum_penalty lag =>
      if lag < comp.length then
        match autocorrelate comp lag with
        | some coeff =>
          if mkRat 3 20 < |coeff| then sum_penalty + |coeff| else sum_penalty
        | none => sum_penalty
      else sum_penalty) c
    = c + ((l.filter (fun lag => decide (lag < comp.length))).map
             (acContribution autocorrelate comp)).sum := by
  induction l generalizing c with
  | nil => simp
  | cons x xs ih =>
    simp only [List.foldl_cons, List.filter_cons]
    by_cases hx : x < comp.length
    · rcases hc : autocorrelate comp x with _ | coeff
      · simp [if_pos hx, hc, hx, ih, acContribution]
      · by_cases hth : mkRat 3 20 < |coeff|
        · simp [if_pos hx, hc, if_pos hth, hx, ih, acContribution]
          ring
        · simp [if_pos hx, hc, if_neg hth, hx, ih, acContribution]
    · simp [if_neg hx, hx, ih]

lemma acContribution_nonneg (autocorrelate : List ℤ → ℕ → Option ℚ)
    (comp : List ℤ) (lag : ℕ) : 0 ≤ acContribution autocorrelate comp lag := by
  unfold acContribution
  rcases autocorrelate comp lag with _ | coeff
  · exact le_refl 0
  · dsimp only
    split
    · exact abs_nonneg coeff
    · exact le_refl 0

/-- Claim C6: the autocorrelation penalty is the negated sum, over the lags
1, 2, 3 shorter than the composition, of the absolute coefficients exceeding
the 0.15 threshold; an undefined (NaN) coefficient contributes nothing, the
function is total, and the result is never positive. -/
theorem reward_penalize_autocorrelation_spec :
    (∀ (autocorrelate : List ℤ → ℕ → Option ℚ) (comp : List ℤ),
       reward_penalize_autocorrelation autocorrelate comp [1, 2, 3] =
         -((([1, 2, 3] : List ℕ).filter
              (fun lag => decide (lag < comp.length))).map
             (acContribution autocorrelate comp)).sum) ∧
    (∀ (autocorrelate : List ℤ → ℕ → Option ℚ) (comp : List ℤ) (lags : List ℕ),
       reward_penalize_autocorrelation autocorrelate comp lags ≤ 0) := by
  constructor
  · intro autocorrelate comp
    unfold reward_penalize_autocorrelation
    rw [autocorr_foldl]
    rw [zero_add]
  · intro autocorrelate comp lags
    unfold reward_penalize_autocorrelation
    rw [autocorr_foldl, zero_add, neg_nonpos]
    apply List.sum_nonneg
    intro x hx
    rcases List.mem_map.1 hx with ⟨lag, _, rfl⟩
    exact acContribution_nonneg autocorrelate comp lag

/-- Claim C8 (counterexample): at full target length 0 the composition is
empty, and `reward_high_low_unique` fails on the maximum of an empty array
instead of returning the claimed sum (0, 1 or 2). -/
theorem reward_high_low_unique_empty_cex :
    reward_high_low_unique 0 [] = .error .valueError ∧
    reward_high_low_unique 0 [] ≠ .ok 0 ∧
    reward_high_low_unique 0 [] ≠ .ok 1 ∧
    reward_high_low_unique 0 [] ≠ .ok 2 := by
  refine ⟨rfl, fun h => ?_, fun h => ?_, fun h => ?_⟩ <;>
    (rw [show reward_high_low_unique 0 [] = .error .valueError from rfl] at h;
     exact Except.noConfusion h)

/-- Claim C8 (amended): `reward_high_low_unique` is 0 whenever the composition
length differs from the target length; at full length, for a nonempty
composition (one whose maximum exists), it adds 1 when the maximum occurs
exactly once and 1 when the minimum over non-HOLD/non-NOTE-OFF events is
unique, never exceeding 2; there is no low bonus when no sounding event
exists; and a full-length composition whose maximum occurs once and whose
minimum sounding pitch occurs twice scores exactly 1. -/
theorem reward_high_low_unique_spec :
    (∀ (n : ℕ) (comp : List ℤ), comp.length ≠ n →
       reward_high_low_unique n comp = .ok 0) ∧
    (∀ (n : ℕ) (comp : List ℤ) (m : ℤ), comp.length = n → comp.max? = some m →
       reward_high_low_unique n comp =
         .ok ((if comp.count m = 1 then 1 else 0) +
              (if detect_low_unique comp then 1 else 0)) ∧
       ((if comp.count m = 1 then (1 : ℚ) else 0) +
        (if detect_low_unique comp then 1 else 0)) ≤ 2) ∧
    (∀ comp : List ℤ, comp.filter (fun x => !isSpecial x) = [] →
       detect_low_unique comp = false) ∧
    (∀ (n : ℕ) (comp : List ℤ) (m mn : ℤ), comp.length = n →
       comp.max? = some m → comp.count m = 1 →
       (comp.filter (fun x => !isSpecial x)).min? = some mn →
       comp.count mn = 2 →
       reward_high_low_unique n comp = .ok 1) := by
  refine ⟨?_, ?_, ?_, ?_⟩
  · intro n comp h
    unfold reward_high_low_unique
    rw [if_pos h]
  · intro n comp m hlen hmax
    constructor
    · unfold reward_high_low_unique detect_high_unique
      rw [if_neg (by simp [hlen])]
      simp only [hmax]
      simp [beq_iff_eq]
    · split <;> split <;> norm_num
  · intro comp h
    unfold detect_low_unique
    rw [h]
    rfl
  · intro n comp m mn hlen hmax hcnt hmin hcnt2
    unfold reward_high_low_unique detect_high_unique detect_low_unique
    rw [if_neg (by simp [hlen])]
    simp only [hmax, hmin, hcnt, hcnt2]
    norm_num

/-- Witness for claim C8: the composition [2, 2, 4] at target length 3 has a
unique maximum and a twice-occurring minimum sounding pitch, scoring 1. -/
theorem reward_high_low_unique_spec_witness :
    reward_high_low_unique 3 [2, 2, 4] = .ok 1 :=
  reward_high_low_unique_spec.2.2.2 3 [2, 2, 4] 4 2 rfl (by decide) (by decide)
    (by decide) (by decide)

lemma detect_sequential_interval_ne_typeError (a : ℤ) (k : Option (List ℤ))
    (comp : List ℤ) :
    detect_sequential_interval a k comp ≠ .error .typeError := by
  simp only [detect_sequential_interval]
  repeat' split
  all_goals simp

/-- Claim C9: `_reset` initializes the leap state to direction NONE, no leap
origin and zero steps, the origin-absent-iff-no-direction invariant holds
there, it is preserved by every successful `detect_leap_up_back` call, and
under the invariant the comparison of the action with `leapt_from` can never
hit an absent origin (no TypeError). -/
theorem leap_state_reset_and_invariant :
    (resetLeapState.composition_direction = 0 ∧
     resetLeapState.leapt_from = none ∧
     resetLeapState.steps_since_last_leap = 0 ∧ leapInv resetLeapState) ∧
    (∀ (sbl : ℕ) (s : LeapState) (comp : List ℤ) (a : ℤ) (o : ℤ)
       (s2 : LeapState), leapInv s →
       detect_leap_up_back sbl s comp a = .ok (o, s2) → leapInv s2) ∧
    (∀ (sbl : ℕ) (s : LeapState) (comp : List ℤ) (a : ℤ), leapInv s →
       detect_leap_up_back sbl s comp a ≠ .error .typeError) := by
  refine ⟨⟨rfl, rfl, rfl, by simp [leapInv, resetLeapState]⟩, ?_, ?_⟩
  · intro sbl s comp a o s2 hInv h
    simp only [detect_leap_up_back] at h
    rcases hsi : detect_sequential_interval a none comp with e | ⟨i, an, pn⟩ <;>
      rw [hsi] at h <;> dsimp only at h
    · exact Except.noConfusion h
    · repeat' split at h
      all_goals
        first
          | exact Except.noConfusion h
          | (simp only [Except.ok.injEq, Prod.mk.injEq] at h
             obtain ⟨ho, hs⟩ := h
             subst hs
             first
               | simpa [leapInv] using hInv
               | simp [leapInv, ASCENDING, DESCENDING])
  · intro sbl s comp a hInv h
    simp only [detect_leap_up_back] at h
    rcases hsi : detect_sequential_interval a none comp with e | ⟨i, an, pn⟩ <;>
      rw [hsi] at h <;> dsimp only at h
    · injection h with he
      subst he
      exact detect_sequential_interval_ne_typeError a none comp hsi
    · repeat' split at h
      all_goals try exact Except.noConfusion h
      all_goals simp_all [leapInv, ASCENDING, DESCENDING]

/-- Witness for claim C9: starting from the reset state, a fifth-or-larger
leap records a pending direction with a present origin, and the invariant
still holds. -/
theorem leap_state_reset_and_invariant_witness :
    leapInv (⟨1, some 2, 0⟩ : LeapState) :=
  leap_state_reset_and_invariant.2.1 12 resetLeapState [2, 9] 9 0
    ⟨1, some 2, 0⟩ (by simp [leapInv, resetLeapState]) rfl

/-- Claim C3: with a leap pending, an opposite-direction fifth-or-larger leap
yields LEAP_RESOLVED only when more than `steps_between_leaps` steps have
passed — yet the pending state (direction and origin) is cleared either way;
a smaller-than-fifth move that reaches back past the leap origin in the
opposite sense resolves the leap unconditionally, with no step-count gate. -/
theorem detect_leap_up_back_pending_gate_and_gradual
    (sbl : ℕ) (s : LeapState) (comp : List ℤ) (a : ℤ) (i : ℚ) (p : ℤ)
    (hsi : detect_sequential_interval a none comp = .ok (i, a, p))
    (hspec : isSpecial a = false)
    (hdir : s.composition_direction = ASCENDING ∨
            s.composition_direction = DESCENDING) :
    ((FIFTH ≤ i ∨ i = IN_KEY_FIFTH) →
       (if p < a then ASCENDING else DESCENDING) ≠ s.composition_direction →
       detect_leap_up_back sbl s comp a =
         .ok ((if sbl < s.steps_since_last_leap then LEAP_RESOLVED else 0),
              ⟨0, none, 0⟩)) ∧
    (¬(FIFTH ≤ i ∨ i = IN_KEY_FIFTH) →
       ∀ lf : ℤ, s.leapt_from = some lf →
       ((s.composition_direction = ASCENDING ∧ a ≤ lf) ∨
        (s.composition_direction = DESCENDING ∧ lf ≤ a)) →
       detect_leap_up_back sbl s comp a =
         .ok (LEAP_RESOLVED, ⟨0, none, s.steps_since_last_leap + 1⟩)) := by
  have hnot : ¬(a = NOTE_OFF ∨ a = NO_EVENT) := by
    simp only [isSpecial, NO_EVENT, NOTE_OFF] at hspec
    simp only [NOTE_OFF, NO_EVENT]
    rcases Bool.or_eq_false_iff.1 hspec with ⟨h0, h1⟩
    rintro (h | h)
    · rw [h] at h1; simp at h1
    · rw [h] at h0; simp at h0
  have hdir0 : s.composition_direction ≠ 0 := by
    rcases hdir with h | h <;> rw [h] <;> simp [ASCENDING, DESCENDING]
  constructor
  · intro hbig hld
    simp only [detect_leap_up_back, hsi]
    rw [if_neg hnot, if_pos hbig, if_pos hdir0, if_pos (Ne.symm hld)]
  · intro hsmall lf hlf hcross
    simp only [detect_leap_up_back, hsi]
    rw [if_neg hnot, if_neg hsmall]
    rcases hdir with h1 | h1
    · rw [if_pos h1, hlf]
      rcases hcross with ⟨_, hle⟩ | ⟨hd, _⟩
      · dsimp only
        rw [if_pos hle]
      · rw [h1] at hd
        simp [ASCENDING, DESCENDING] at hd
    · rw [if_neg (by rw [h1]; simp [ASCENDING, DESCENDING]), if_pos h1, hlf]
      rcases hcross with ⟨hd, _⟩ | ⟨_, hle⟩
      · rw [h1] at hd
        simp [ASCENDING, DESCENDING] at hd
      · dsimp only
        rw [if_pos hle]

/-- Witness for claim C3: an immediate opposite leap clears the pending state
without reward (gate not met), and a gradual return past the origin resolves
with reward regardless of the gate. -/
theorem detect_leap_up_back_pending_gate_and_gradual_witness :
    detect_leap_up_back 12 ⟨1, some 20, 0⟩ [20, 9] 9 = .ok (0, ⟨0, none, 0⟩) ∧
    detect_leap_up_back 12 ⟨1, some 12, 3⟩ [13, 11] 11 =
      .ok (LEAP_RESOLVED, ⟨0, none, 4⟩) := by
  constructor
  · have h := (detect_leap_up_back_pending_gate_and_gradual 12 ⟨1, some 20, 0⟩
      [20, 9] 9 11 20 rfl rfl (Or.inl rfl)).1
      (by norm_num [FIFTH, IN_KEY_FIFTH]) (by decide)
    simpa using h
  · have h := (detect_leap_up_back_pending_gate_and_gradual 12 ⟨1, some 12, 3⟩
      [13, 11] 11 2 13 rfl rfl (Or.inl rfl)).2
      (by norm_num [FIFTH, IN_KEY_FIFTH, Rat.mkRat_eq_div]) 12 rfl
      (Or.inl ⟨rfl, by decide⟩)
    simpa using h

/-- Claim C1: whenever the step function returns, the total reward is the base
environment reward plus the weighted heuristic terms — key membership minus
one, 3 times tonic, 100 times the repetition penalty, 4 times the
autocorrelation penalty, 3 times motif, 4 times repeated motif, 5 times the
preferred-interval reward, 5 times the leap reward and 3 times the
high/low-uniqueness reward, evaluated in that order, with the leap heuristic
alone updating the leap state. -/
theorem stepReward_eq_weighted_sum
    (autocorrelate : List ℤ → ℕ → Option ℚ) (base : ℚ) (beat num_notes : ℕ)
    (s : LeapState) (comp : List ℤ) (action : ℤ) (r : ℚ) (s2 : LeapState)
    (hstep : stepReward autocorrelate base beat num_notes s comp action =
      .ok (r, s2)) :
    ∃ (t p l h : ℚ),
      reward_tonic beat num_notes action = .ok t ∧
      reward_preferred_intervals action none comp = .ok p ∧
      reward_leap_up_back 12 s comp action = .ok (l, s2) ∧
      reward_high_low_unique num_notes comp = .ok h ∧
      r = base + (reward_key action C_MAJOR_KEY - 1) + t * 3 +
          reward_penalize_repeating action comp * 100 +
          reward_penalize_autocorrelation autocorrelate comp [1, 2, 3] * 4 +
          reward_motif comp * 3 + reward_repeated_motif comp * 4 +
          p * 5 + l * 5 + h * 3 := by
  unfold stepReward at hstep
  cases h1 : reward_tonic beat num_notes action with
  | error e => rw [h1] at hstep; exact Except.noConfusion hstep
  | ok t =>
    rw [h1] at hstep
    cases h2 : reward_preferred_intervals action none comp with
    | error e =>
      rw [h2] at hstep
      exact Except.noConfusion hstep
    | ok p =>
      rw [h2] at hstep
      cases h3 : reward_leap_up_back 12 s comp action with
      | error e =>
        rw [h3] at hstep
        exact Except.noConfusion hstep
      | ok ls =>
        rw [h3] at hstep
        cases h4 : reward_high_low_unique num_notes comp with
        | error e =>
          rw [h4] at hstep
          exact Except.noConfusion hstep
        | ok hq =>
          rw [h4] at hstep
          obtain ⟨l, sx⟩ := ls
          simp only [Except.bind, bind, pure, Except.pure, Except.ok.injEq,
            Prod.mk.injEq] at hstep
          obtain ⟨hr, hs⟩ := hstep
          subst hs
          exact ⟨t, p, l, hq, rfl, rfl, rfl, rfl, hr.symm⟩

/-- Witness for claim C1: a concrete successful step (composition [2, 4],
action 4, second beat) evaluating to total reward 2/5 with the leap state
advanced by one step. -/
theorem stepReward_eq_weighted_sum_witness :
    ∃ (t p l h : ℚ),
      reward_tonic 2 128 4 = .ok t ∧
      reward_preferred_intervals 4 none [2, 4] = .ok p ∧
      reward_leap_up_back 12 resetLeapState [2, 4] 4 = .ok (l, ⟨0, none, 1⟩) ∧
      reward_high_low_unique 128 [2, 4] = .ok h ∧
      mkRat 2 5 = 0 + (reward_key 4 C_MAJOR_KEY - 1) + t * 3 +
          reward_penalize_repeating 4 [2, 4] * 100 +
          reward_penalize_autocorrelation (fun _ _ => none) [2, 4] [1, 2, 3] * 4 +
          reward_motif [2, 4] * 3 + reward_repeated_motif [2, 4] * 4 +
          p * 5 + l * 5 + h * 3 :=
  stepReward_eq_weighted_sum (fun _ _ => none) 0 2 128 resetLeapState [2, 4] 4
    (mkRat 2 5) ⟨0, none, 1⟩ (by
      have e1 : reward_tonic 2 128 4 = .ok 0 := rfl
      have e2 : reward_preferred_intervals 4 none [2, 4] = .ok (mkRat 2 25) :=
        rfl
      have e3 : reward_leap_up_back 12 resetLeapState [2, 4] 4 =
          .ok (0, ⟨0, none, 1⟩) := rfl
      have e4 : reward_high_low_unique 128 [2, 4] = .ok 0 := rfl
      simp only [stepReward, e1, e2, e3, e4, Except.bind, bind, Except.pure,
        pure]
      norm_num [reward_key, C_MAJOR_KEY, Rat.mkRat_eq_div,
        reward_penalize_repeating, repeatScan, NOTES_PER_BEAT, NOTE_OFF,
        NO_EVENT, reward_penalize_autocorrelation, reward_motif,
        detect_last_motif, NOTES_PER_BAR, reward_repeated_motif,
        detect_repeated_motif])
